import Mathlib

/-!
Verification development for the ephemewall sun-band chart generator
(src/generator.py).

Modelling conventions (shallow embedding):
* Instants are integers: seconds since an arbitrary epoch, always in UTC.
* A timezone-aware datetime is a pair of the UTC instant and a fixed
  UTC offset in seconds (the timezone provider is an external collaborator;
  it is modelled as a fixed offset).  Wall-clock components (hour, minute,
  second) are derived from utc + off, exactly as Python exposes local
  components of an aware datetime.
* Python floor division and modulo on seconds by positive constants are
  Int division and modulo (Euclidean = floor for positive divisors).
* The PyEphem oracle is external: it is modelled as a structure of total
  functions from (reference instant, horizon, use_center) to instants.
  Claims that depend on physical facts about the oracle (for instance that
  twilight at a lower horizon ends later in the evening) take those facts
  as explicit hypotheses.
* The observer-state mutation performed by get_set_rise, and the
  possibility that PyEphem raises for polar days, are modelled separately
  and explicitly for the exception-safety claim (get_set_rise_obs below).
-/

/-- A timezone-aware datetime: a UTC instant in seconds plus a fixed
UTC offset in seconds.  Localization (astimezone) changes only the offset
component, never the instant. -/
structure LocalDT where
  utc : Int
  off : Int
deriving DecidableEq, Repr

/-- Wall-clock seconds since local midnight, in [0, 86400). -/
def LocalDT.wallSecs (d : LocalDT) : Int := (d.utc + d.off) % 86400

/-- Local hour component (Python date.hour), in [0, 24). -/
def LocalDT.hour (d : LocalDT) : Int := d.wallSecs / 3600

/-- Local minute component (Python date.minute). -/
def LocalDT.minute (d : LocalDT) : Int := (d.wallSecs % 3600) / 60

/-- Local second component (Python date.second). -/
def LocalDT.second (d : LocalDT) : Int := d.wallSecs % 60

/-- Embeds hours_since_midnight (generator.py line 91): hour + minute/60
+ second/3600 as an exact rational. -/
def hours_since_midnight (d : LocalDT) : ℚ :=
  (d.hour : ℚ) + (d.minute : ℚ) / 60 + (d.second : ℚ) / 3600

/-- Embeds localize inside get_sun_events (line 51): attach the chart
timezone to a UTC instant, leaving the instant itself unchanged. -/
def localize (tz : Int) (d : Int) : LocalDT := ⟨d, tz⟩

/-- The external PyEphem rise/set oracle, as a family of total functions.
Arguments of the first two: reference instant (observer.date), horizon in
degrees (the source passes the strings 0, -6, -12, -18), and use_center. -/
structure Ephemeris where
  previous_setting : Int → Int → Bool → Int
  next_rising : Int → Int → Bool → Int
  previous_antitransit : Int → Int
  next_antitransit : Int → Int

/-- Embeds get_set_rise (lines 42-48) on the success path: the pair of
the previous setting and the next rising at the requested horizon and
disc reference point.  (The horizon override on the observer nets to a
no-op when the oracle calls return; see get_set_rise_obs for the explicit
state-passing model used by the exception-safety claim.) -/
def get_set_rise (eph : Ephemeris) (date : Int) (horizon : Int) (use_center : Bool) :
    Int × Int :=
  (eph.previous_setting date horizon use_center,
   eph.next_rising date horizon use_center)

/-- Embeds the SunEvents class (lines 30-40): ten attributes, each
defaulting to None. -/
structure SunEvents where
  date : Option Int := none
  set : Option LocalDT := none
  rise : Option LocalDT := none
  antitransit : Option LocalDT := none
  civil_twilight_pm : Option LocalDT := none
  nautical_twilight_pm : Option LocalDT := none
  astro_twilight_pm : Option LocalDT := none
  civil_twilight_am : Option LocalDT := none
  nautical_twilight_am : Option LocalDT := none
  astro_twilight_am : Option LocalDT := none
deriving DecidableEq, Repr

/-- Embeds the body of the while loop of get_sun_events (lines 61-85):
build one SunEvents record for the day instant current_date, starting
from the all-None defaults and assigning the fields in source order. -/
def build_day_events (eph : Ephemeris) (tz : Int) (current_date : Int) : SunEvents :=
  let events : SunEvents := {}
  let events := { events with date := some current_date }
  let sr := get_set_rise eph current_date 0 false
  let events := { events with
    set := some (localize tz sr.1), rise := some (localize tz sr.2) }
  let prev_at := eph.previous_antitransit current_date
  let next_at := eph.next_antitransit current_date
  let chosen :=
    if |current_date - prev_at| ≤ |current_date - next_at| then prev_at else next_at
  let events := { events with antitransit := some (localize tz chosen) }
  let ct := get_set_rise eph current_date (-6) true
  let events := { events with
    civil_twilight_pm := some (localize tz ct.1),
    civil_twilight_am := some (localize tz ct.2) }
  let nt := get_set_rise eph current_date (-12) true
  let events := { events with
    nautical_twilight_pm := some (localize tz nt.1),
    nautical_twilight_am := some (localize tz nt.2) }
  let astro_sr := get_set_rise eph current_date (-18) true
  let events := { events with
    astro_twilight_pm := some (localize tz astro_sr.1),
    astro_twilight_am := some (localize tz astro_sr.2) }
  events

/-- Embeds line 56-57 of get_sun_events: start_date with its wall clock
replaced by 00:00:00 of the same local day, converted to UTC (conversion
does not move the instant). -/
def local_midnight (start_date : LocalDT) : Int :=
  start_date.utc - (start_date.utc + start_date.off) % 86400

/-- Embeds the while loop of get_sun_events (lines 60-87): one record per
day instant strictly before end_date, stepping by one day (86400 s). -/
def get_sun_events_loop (eph : Ephemeris) (tz : Int) (current_date end_date : Int) :
    List SunEvents :=
  if current_date < end_date then
    build_day_events eph tz current_date ::
      get_sun_events_loop eph tz (current_date + 86400) end_date
  else
    []
termination_by (end_date - current_date).toNat
decreasing_by
  simp_wf
  omega

/-- Embeds get_sun_events (lines 50-87): the chart timezone is taken from
start_date, the loop starts at the local midnight of start_date and uses
instant comparison against end_date. -/
def get_sun_events (eph : Ephemeris) (start_date end_date : LocalDT) : List SunEvents :=
  get_sun_events_loop eph start_date.off (local_midnight start_date) end_date.utc

/-- Evaluation form of the while loop: the records are exactly one per
day instant current_date + 86400 k with that instant before end_date. -/
theorem get_sun_events_loop_eq (eph : Ephemeris) (tz : Int) (current_date end_date : Int) :
    get_sun_events_loop eph tz current_date end_date =
      (List.range ((end_date - current_date + 86399) / 86400).toNat).map
        (fun k : ℕ => build_day_events eph tz (current_date + 86400 * (k : Int))) := by
  suffices H : ∀ n : ℕ, ∀ cur : Int, (end_date - cur).toNat = n →
      get_sun_events_loop eph tz cur end_date =
        (List.range ((end_date - cur + 86399) / 86400).toNat).map
          (fun k : ℕ => build_day_events eph tz (cur + 86400 * (k : Int))) by
    exact H _ _ rfl
  intro n
  induction n using Nat.strong_induction_on with
  | _ n ih =>
    intro cur hn
    rw [get_sun_events_loop]
    by_cases h : cur < end_date
    · simp only [if_pos h]
      rw [ih ((end_date - (cur + 86400)).toNat) (by omega) (cur + 86400) rfl]
      have hcount : ((end_date - cur + 86399) / 86400).toNat
          = ((end_date - (cur + 86400) + 86399) / 86400).toNat + 1 := by
        omega
      rw [hcount, List.range_succ_eq_map, List.map_cons, List.map_map]
      congr 1
      · norm_num
      · apply List.map_congr_left
        intro k _
        simp only [Function.comp_apply]
        congr 1
        push_cast
        ring
    · simp only [if_neg h]
      have : ((end_date - cur + 86399) / 86400).toNat = 0 := by omega
      rw [this]
      simp

/-- Embeds the Python builtin min(iterable, key) used at line 126: the
first element of the list whose key is minimal (later elements replace
the current best only on a strictly smaller key); None on the empty list,
where Python raises ValueError. -/
def minByKey {α : Type} (f : α → Int) : List α → Option α
  | [] => none
  | x :: xs => some (xs.foldl (fun best y => if f y < f best then y else best) x)

/-- Embeds the Python builtin max(iterable, key) used at line 128: the
first element of the list whose key is maximal. -/
def maxByKey {α : Type} (f : α → Int) : List α → Option α
  | [] => none
  | x :: xs => some (xs.foldl (fun best y => if f best < f y then y else best) x)

/-- Wall-clock seconds of an optional localized instant (models the
datetime.time() value compared by the min and max keys at lines 126 and
128; records produced by the calculator always carry a value, so the
default is never consulted on real input). -/
def time_of_day (o : Option LocalDT) : Int := (o.getD ⟨0, 0⟩).wallSecs

/-- The static configuration surface of the program: the subset of the
params dictionary (lines 9-28) consumed by the layout and geometry code,
with start-date and end-date already made timezone-aware as in main. -/
structure ChartParams where
  vscale : ℚ
  hscale : ℚ
  day_fill : String
  civil_fill : String
  nautical_fill : String
  astro_fill : String
  night_fill : String
  padding_top : ℚ
  padding_left : ℚ
  padding_bottom : ℚ
  padding_right : ℚ
  start_date : LocalDT
  end_date : LocalDT
deriving DecidableEq, Repr

/-- The params dictionary of generator.py lines 9-28 with its concrete
values (start 2018-01-02 00:00 and end 2019-01-01 12:00, both UTC+11). -/
def params : ChartParams where
  vscale := 30
  hscale := 5 / 2
  day_fill := "rgb(250, 250, 255)"
  civil_fill := "rgb(128, 128, 255)"
  nautical_fill := "rgb(0, 0, 255)"
  astro_fill := "rgb(0, 0, 128)"
  night_fill := "rgb(0, 0, 64)"
  padding_top := 30
  padding_left := 30
  padding_bottom := 30
  padding_right := 30
  start_date := ⟨1514811600, 39600⟩
  end_date := ⟨1546304400, 39600⟩

/-- The calc_params dictionary as filled in by main (lines 125-135). -/
structure LayoutParams where
  earliest_set : ℚ
  latest_rise : ℚ
  canvas_width : ℚ
  canvas_height : ℚ
deriving DecidableEq, Repr

/-- Embeds the data-dependent layout computation of main (lines 125-135).
Python raises ValueError when min or max is applied to an empty series;
that failure is modelled as none. -/
def compute_layout (p : ChartParams) (sun_events : List SunEvents) : Option LayoutParams :=
  match minByKey (fun x => time_of_day x.set) sun_events,
        maxByKey (fun x => time_of_day x.rise) sun_events with
  | some set_min, some rise_max =>
      let earliest_set : ℚ := 24 - hours_since_midnight (set_min.set.getD ⟨0, 0⟩)
      let latest_rise : ℚ := hours_since_midnight (rise_max.rise.getD ⟨0, 0⟩)
      some
        { earliest_set := earliest_set
          latest_rise := latest_rise
          canvas_width :=
            (((p.end_date.utc - p.start_date.utc) / 86400 : Int) : ℚ) * p.hscale
              + p.padding_left + p.padding_right
          canvas_height :=
            (earliest_set + latest_rise) * p.vscale + p.padding_top + p.padding_bottom }
  | _, _ => none

/-- The day_diff value computed by date_to_point (lines 95, 97-98):
whole-day difference to start-date, bumped by one for afternoon hours. -/
def mapped_day_diff (p : ChartParams) (date : LocalDT) : Int :=
  let day_diff := (date.utc - p.start_date.utc) / 86400
  if 12 ≤ date.hour then day_diff + 1 else day_diff

/-- The time_diff value computed by date_to_point (lines 96-99):
latest-rise offset minus hours since midnight, folded forward by 24 for
afternoon hours. -/
def mapped_time_diff (latest_rise : ℚ) (date : LocalDT) : ℚ :=
  let time_diff := latest_rise - hours_since_midnight date
  if 12 ≤ date.hour then time_diff + 24 else time_diff

/-- Embeds date_to_point (lines 94-102).  The latest-rise entry of
calc_params is passed explicitly instead of read from the module-level
dictionary. -/
def date_to_point (p : ChartParams) (latest_rise : ℚ) (date : LocalDT) : ℚ × ℚ :=
  ((mapped_day_diff p date : ℚ) * p.hscale + p.padding_left,
   mapped_time_diff latest_rise date * p.vscale + p.padding_top)

/-- One SVG path command as pushed by the source: an initial moveto, a
coordinate pair, or the final closepath (the z command). -/
inductive PathCmd where
  | moveto : PathCmd
  | point : ℚ × ℚ → PathCmd
  | closepath : PathCmd
deriving DecidableEq, Repr

/-- Embeds get_sun_event_path (lines 104-112): an M command, the key1
point of every record in order, the key2 point of every record in
reverse order, and a final z command.  The selectors return the Option
fields of the record; the calculator always fills them (see the claim on
record population), so the default is never consulted on real input. -/
def get_sun_event_path (p : ChartParams) (latest_rise : ℚ) (events : List SunEvents)
    (key1 key2 : SunEvents → Option LocalDT) : List PathCmd :=
  [PathCmd.moveto]
    ++ events.map (fun e => PathCmd.point (date_to_point p latest_rise ((key1 e).getD ⟨0, 0⟩)))
    ++ events.reverse.map
        (fun e => PathCmd.point (date_to_point p latest_rise ((key2 e).getD ⟨0, 0⟩)))
    ++ [PathCmd.closepath]

/-- The coordinate pairs occurring in a command list, in order. -/
def path_vertices (cmds : List PathCmd) : List (ℚ × ℚ) :=
  cmds.filterMap fun c =>
    match c with
    | PathCmd.point q => some q
    | _ => none

/-- The point sequence a command list traces: its coordinate pairs, and,
when the path carries a closepath command, the closing segment back to
the first point (the SVG semantics of the z command). -/
def path_points (cmds : List PathCmd) : List (ℚ × ℚ) :=
  if PathCmd.closepath ∈ cmds then
    match (path_vertices cmds).head? with
    | some h => path_vertices cmds ++ [h]
    | none => []
  else path_vertices cmds

/-- Embeds the border and background rectangle of main (lines 141-144):
M 0 0, the four canvas corners, Z. -/
def border_path (w h : ℚ) : List PathCmd :=
  [PathCmd.moveto, PathCmd.point (0, 0), PathCmd.point (w, 0),
   PathCmd.point (w, h), PathCmd.point (0, h), PathCmd.closepath]

/-- Embeds the drawing assembly of main (lines 137-172): the ordered list
of filled shapes added to the SVG document, each paired with its fill
color.  The element names in the source are border, civil_twilight_path,
nautical_twilight_path, astro_twilight_path and night_path. -/
def assemble_chart (p : ChartParams) (sun_events : List SunEvents) (cp : LayoutParams) :
    List (List PathCmd × String) :=
  [ (border_path cp.canvas_width cp.canvas_height, p.day_fill),
    (get_sun_event_path p cp.latest_rise sun_events
       (fun x => x.rise) (fun x => x.set), p.civil_fill),
    (get_sun_event_path p cp.latest_rise sun_events
       (fun x => x.civil_twilight_am) (fun x => x.civil_twilight_pm), p.nautical_fill),
    (get_sun_event_path p cp.latest_rise sun_events
       (fun x => x.nautical_twilight_am) (fun x => x.nautical_twilight_pm), p.astro_fill),
    (get_sun_event_path p cp.latest_rise sun_events
       (fun x => x.astro_twilight_am) (fun x => x.astro_twilight_pm), p.night_fill) ]

/-- Observer state shared between oracle calls: the configured horizon
and the reference date, as mutated by get_sun_events and get_set_rise. -/
structure Observer where
  horizon : Int
  date : Int
deriving DecidableEq, Repr

/-- The failure PyEphem raises when the body never rises or never sets
at the requested horizon (polar day or polar night). -/
inductive PolarError where
  | neverRises : PolarError
  | neverSets : PolarError
deriving DecidableEq, Repr

/-- Embeds get_set_rise (lines 42-48) with the observer state passing and
the possible oracle failure explicit.  The oracle receives the observer
(whose horizon has been overridden) and use_center, and returns the
(previous setting, next rising) pair or raises.  The returned observer is
the state the caller sees after the call: the source restores the
original horizon only on the line after the oracle calls, so on the
failure path the exception propagates with the override still applied. -/
def get_set_rise_obs (oracle : Observer → Bool → Except PolarError (Int × Int))
    (observer : Observer) (horizon : Int) (use_center : Bool) :
    Except PolarError (Int × Int) × Observer :=
  let original_horizon := observer.horizon
  let observer := { observer with horizon := horizon }
  match oracle observer use_center with
  | Except.ok result => (Except.ok result, { observer with horizon := original_horizon })
  | Except.error e => (Except.error e, observer)

/-- Comparison of two optional localized instants: true when both are
present and the first instant is not after the second (and vacuously true
when either is absent). -/
def le_opt (a b : Option LocalDT) : Bool :=
  match a, b with
  | some x, some y => x.utc ≤ y.utc
  | _, _ => true

/-- The chronological ordering the calculator actually establishes on a
record: previous-evening events from sunset down to astronomical dusk,
then the morning events from astronomical dawn up to sunrise. -/
def record_ordered (e : SunEvents) : Bool :=
  le_opt e.set e.civil_twilight_pm
    && le_opt e.civil_twilight_pm e.nautical_twilight_pm
    && le_opt e.nautical_twilight_pm e.astro_twilight_pm
    && le_opt e.astro_twilight_pm e.astro_twilight_am
    && le_opt e.astro_twilight_am e.nautical_twilight_am
    && le_opt e.nautical_twilight_am e.civil_twilight_am
    && le_opt e.civil_twilight_am e.rise

/-- Modelled from the spec wording of the ordering invariant (for the
comparison with the code): astro_am before nautical_am before civil_am
before rise before set before civil_pm before nautical_pm before
astro_pm, read on the stored instants. -/
def record_ordered_spec (e : SunEvents) : Bool :=
  le_opt e.astro_twilight_am e.nautical_twilight_am
    && le_opt e.nautical_twilight_am e.civil_twilight_am
    && le_opt e.civil_twilight_am e.rise
    && le_opt e.rise e.set
    && le_opt e.set e.civil_twilight_pm
    && le_opt e.civil_twilight_pm e.nautical_twilight_pm
    && le_opt e.nautical_twilight_pm e.astro_twilight_pm

/-- All ten fields of a record carry a value (no field still holds the
None default of the SunEvents class). -/
def fully_populated (e : SunEvents) : Bool :=
  e.date.isSome && e.set.isSome && e.rise.isSome && e.antitransit.isSome
    && e.civil_twilight_pm.isSome && e.nautical_twilight_pm.isSome
    && e.astro_twilight_pm.isSome && e.civil_twilight_am.isSome
    && e.nautical_twilight_am.isSome && e.astro_twilight_am.isSome

theorem foldl_minBy_spec {α : Type} (f : α → Int) (xs : List α) (x : α) :
    (xs.foldl (fun best y => if f y < f best then y else best) x) ∈ x :: xs ∧
    f (xs.foldl (fun best y => if f y < f best then y else best) x) ≤ f x ∧
    ∀ z ∈ xs, f (xs.foldl (fun best y => if f y < f best then y else best) x) ≤ f z := by
  induction xs generalizing x with
  | nil => simp
  | cons y ys ih =>
    obtain ⟨ihmem, ihle, ihall⟩ := ih (if f y < f x then y else x)
    rw [List.foldl_cons]
    refine ⟨?_, ?_, ?_⟩
    · rcases List.mem_cons.mp ihmem with hh | ht
      · rw [hh]
        by_cases hc : f y < f x <;> simp [hc]
      · simp [List.mem_cons, ht]
    · refine le_trans ihle ?_
      by_cases hc : f y < f x <;> simp [hc]
      exact le_of_lt hc
    · intro z hz
      rcases List.mem_cons.mp hz with hh | ht
      · rw [hh]
        refine le_trans ihle ?_
        by_cases hc : f y < f x <;> simp [hc]
        omega
      · exact ihall z ht

theorem foldl_maxBy_spec {α : Type} (f : α → Int) (xs : List α) (x : α) :
    (xs.foldl (fun best y => if f best < f y then y else best) x) ∈ x :: xs ∧
    f x ≤ f (xs.foldl (fun best y => if f best < f y then y else best) x) ∧
    ∀ z ∈ xs, f z ≤ f (xs.foldl (fun best y => if f best < f y then y else best) x) := by
  induction xs generalizing x with
  | nil => simp
  | cons y ys ih =>
    obtain ⟨ihmem, ihle, ihall⟩ := ih (if f x < f y then y else x)
    rw [List.foldl_cons]
    refine ⟨?_, ?_, ?_⟩
    · rcases List.mem_cons.mp ihmem with hh | ht
      · rw [hh]
        by_cases hc : f x < f y <;> simp [hc]
      · simp [List.mem_cons, ht]
    · refine le_trans ?_ ihle
      by_cases hc : f x < f y <;> simp [hc]
      exact le_of_lt hc
    · intro z hz
      rcases List.mem_cons.mp hz with hh | ht
      · rw [hh]
        refine le_trans ?_ ihle
        by_cases hc : f x < f y <;> simp [hc]
        omega
      · exact ihall z ht

theorem minByKey_spec {α : Type} (f : α → Int) (l : List α) (m : α)
    (h : minByKey f l = some m) : m ∈ l ∧ ∀ z ∈ l, f m ≤ f z := by
  cases l with
  | nil => simp [minByKey] at h
  | cons x xs =>
    have hspec := foldl_minBy_spec f xs x
    simp only [minByKey, Option.some.injEq] at h
    subst h
    exact ⟨hspec.1, fun z hz => by
      rcases List.mem_cons.mp hz with hh | ht
      · exact hh ▸ hspec.2.1
      · exact hspec.2.2 z ht⟩

theorem maxByKey_spec {α : Type} (f : α → Int) (l : List α) (m : α)
    (h : maxByKey f l = some m) : m ∈ l ∧ ∀ z ∈ l, f z ≤ f m := by
  cases l with
  | nil => simp [maxByKey] at h
  | cons x xs =>
    have hspec := foldl_maxBy_spec f xs x
    simp only [maxByKey, Option.some.injEq] at h
    subst h
    exact ⟨hspec.1, fun z hz => by
      rcases List.mem_cons.mp hz with hh | ht
      · exact hh ▸ hspec.2.1
      · exact hspec.2.2 z ht⟩

/-- A record of the series is the day record of some day instant of the
iterated range. -/
theorem mem_get_sun_events {eph : Ephemeris} {start_date end_date : LocalDT}
    {e : SunEvents} (h : e ∈ get_sun_events eph start_date end_date) :
    ∃ k : ℕ, e = build_day_events eph start_date.off
      (local_midnight start_date + 86400 * (k : Int)) := by
  rw [get_sun_events, get_sun_events_loop_eq] at h
  obtain ⟨k, _, rfl⟩ := List.mem_map.mp h
  exact ⟨k, rfl⟩

/-- Claim C2, as stated, is false: the claim requires the original
observer horizon to be restored on every control path, including when the
oracle call raises a polar never-rises condition.  With an oracle that
raises, an observer configured at horizon 0 is left at the overridden
horizon -18 after the call. -/
theorem get_set_rise_restore_cex :
    ¬ (∀ (oracle : Observer → Bool → Except PolarError (Int × Int))
         (observer : Observer) (horizon : Int) (use_center : Bool),
         ((get_set_rise_obs oracle observer horizon use_center).2).horizon
           = observer.horizon) := by
  intro h
  have hx := h (fun _ _ => Except.error PolarError.neverRises) ⟨0, 0⟩ (-18) true
  simp [get_set_rise_obs] at hx

/-- Claim C2 (amended): the override nets to a no-op on the observer
state whenever the oracle calls return normally; on the success path the
observer is returned exactly as it was passed in.  (When the oracle call
raises, the exception propagates before the restore line runs and the
override is left in place, as the counterexample shows.) -/
theorem get_set_rise_restores_on_success
    (oracle : Observer → Bool → Except PolarError (Int × Int))
    (observer : Observer) (horizon : Int) (use_center : Bool) (r : Int × Int)
    (h : oracle { observer with horizon := horizon } use_center = Except.ok r) :
    get_set_rise_obs oracle observer horizon use_center = (Except.ok r, observer) := by
  simp [get_set_rise_obs, h]

/-- Witness for the amended claim C2 at a concrete oracle and observer. -/
theorem get_set_rise_restores_on_success_witness :
    (fun (_ : Observer) (_ : Bool) =>
        (Except.ok ((3 : Int), (4 : Int)) : Except PolarError (Int × Int)))
      { horizon := (-18 : Int), date := (0 : Int) } true = Except.ok (3, 4) ∧
    get_set_rise_obs
      (fun _ _ => (Except.ok ((3 : Int), (4 : Int)) : Except PolarError (Int × Int)))
      ⟨5, 0⟩ (-18) true = (Except.ok (3, 4), ⟨5, 0⟩) :=
  ⟨rfl, get_set_rise_restores_on_success _ ⟨5, 0⟩ (-18) true (3, 4) rfl⟩

/-- Claim C10: the fill of each band is one darkness level offset from its
selector pair: the (rise, set) band gets the civil fill, the civil band
the nautical fill, the nautical band the astro fill, the astro band the
night fill, and the day fill appears only on the background rectangle. -/
theorem band_fill_colors (sun_events : List SunEvents) (cp : LayoutParams) :
    (assemble_chart params sun_events cp).map Prod.snd
      = [params.day_fill, params.civil_fill, params.nautical_fill,
         params.astro_fill, params.night_fill] ∧
    (assemble_chart params sun_events cp)[0]?
      = some (border_path cp.canvas_width cp.canvas_height, params.day_fill) ∧
    (assemble_chart params sun_events cp)[1]?
      = some (get_sun_event_path params cp.latest_rise sun_events
          (fun x => x.rise) (fun x => x.set), params.civil_fill) ∧
    (assemble_chart params sun_events cp)[2]?
      = some (get_sun_event_path params cp.latest_rise sun_events
          (fun x => x.civil_twilight_am) (fun x => x.civil_twilight_pm),
          params.nautical_fill) ∧
    (assemble_chart params sun_events cp)[3]?
      = some (get_sun_event_path params cp.latest_rise sun_events
          (fun x => x.nautical_twilight_am) (fun x => x.nautical_twilight_pm),
          params.astro_fill) ∧
    (assemble_chart params sun_events cp)[4]?
      = some (get_sun_event_path params cp.latest_rise sun_events
          (fun x => x.astro_twilight_am) (fun x => x.astro_twilight_pm),
          params.night_fill) ∧
    params.day_fill ∉ ((assemble_chart params sun_events cp).drop 1).map Prod.snd := by
  refine ⟨rfl, rfl, rfl, rfl, rfl, rfl, ?_⟩
  simp only [assemble_chart, List.drop_succ_cons, List.drop_zero, List.map_cons,
    List.map_nil, params]
  decide

/-- A concrete non-polar test oracle: sunset four hours before the day
instant and sunrise six hours after it, each deeper twilight crossing 100
seconds per degree of depression later in the evening and earlier in the
morning; antitransits half an hour before and 23.5 hours after the
reference. -/
def ephW : Ephemeris where
  previous_setting := fun d h _ => d - 14400 - 100 * h
  next_rising := fun d h _ => d + 21600 + 100 * h
  previous_antitransit := fun d => d - 1800
  next_antitransit := fun d => d + 84600

/-- Over the one-day range from instant 0 to instant 86400 at offset 0,
the series consists of the single record of day instant 0. -/
theorem get_sun_events_one_day (eph : Ephemeris) :
    get_sun_events eph ⟨0, 0⟩ ⟨86400, 0⟩ = [build_day_events eph 0 0] := by
  rw [get_sun_events, get_sun_events_loop_eq]
  rfl

/-- Claim C9: every record appended to the returned series has all ten
fields populated with a value; no partially-built record, with a field
still holding the None default of the SunEvents class, is present in the
series the calculator returns. -/
theorem series_records_fully_populated (eph : Ephemeris) (start_date end_date : LocalDT)
    (e : SunEvents) (h : e ∈ get_sun_events eph start_date end_date) :
    fully_populated e = true := by
  obtain ⟨k, rfl⟩ := mem_get_sun_events h
  rfl

/-- Witness for claim C9 at a concrete one-day series. -/
theorem series_records_fully_populated_witness :
    build_day_events ephW 0 0 ∈ get_sun_events ephW ⟨0, 0⟩ ⟨86400, 0⟩ ∧
    fully_populated (build_day_events ephW 0 0) = true := by
  have hmem : build_day_events ephW 0 0 ∈ get_sun_events ephW ⟨0, 0⟩ ⟨86400, 0⟩ := by
    rw [get_sun_events_one_day]
    exact List.mem_singleton.mpr rfl
  exact ⟨hmem, series_records_fully_populated ephW ⟨0, 0⟩ ⟨86400, 0⟩ _ hmem⟩

/-- Claim C3: for every day record, the stored antitransit is one of the
two candidates returned by the previous and next antitransit queries at
the day instant, and no candidate is closer to the local midnight of the day
than the chosen one (under the fixed-offset timezone model the day
instant is exactly the local midnight of the day: its wall clock is zero,
stated as the first conjunct). -/
theorem antitransit_nearest_midnight (eph : Ephemeris) (start_date end_date : LocalDT)
    (e : SunEvents) (h : e ∈ get_sun_events eph start_date end_date) :
    ∀ d ∈ e.date, ∀ a ∈ e.antitransit,
      LocalDT.wallSecs ⟨d, start_date.off⟩ = 0 ∧
      (a.utc = eph.previous_antitransit d ∨ a.utc = eph.next_antitransit d) ∧
      |d - a.utc| ≤ |d - eph.previous_antitransit d| ∧
      |d - a.utc| ≤ |d - eph.next_antitransit d| := by
  obtain ⟨k, rfl⟩ := mem_get_sun_events h
  intro d hd a ha
  simp only [build_day_events, get_set_rise, localize, Option.mem_def,
    Option.some.injEq] at hd ha
  subst hd
  refine ⟨?_, ?_⟩
  · simp only [LocalDT.wallSecs, local_midnight]
    omega
  · subst ha
    by_cases hc : |local_midnight start_date + 86400 * (k : Int)
        - eph.previous_antitransit (local_midnight start_date + 86400 * (k : Int))|
      ≤ |local_midnight start_date + 86400 * (k : Int)
        - eph.next_antitransit (local_midnight start_date + 86400 * (k : Int))|
    · simp only [if_pos hc]
      exact ⟨Or.inl trivial, le_refl _, hc⟩
    · simp only [if_neg hc]
      exact ⟨Or.inr trivial, le_of_lt (not_le.mp hc), le_refl _⟩

/-- Witness for claim C3 at the concrete one-day series: the previous
antitransit (1800 seconds before local midnight) is chosen over the next
one (84600 seconds after). -/
theorem antitransit_nearest_midnight_witness :
    build_day_events ephW 0 0 ∈ get_sun_events ephW ⟨0, 0⟩ ⟨86400, 0⟩ ∧
    (LocalDT.wallSecs ⟨0, (0 : Int)⟩ = 0 ∧
     ((-1800 : Int) = ephW.previous_antitransit 0 ∨
      (-1800 : Int) = ephW.next_antitransit 0) ∧
     |(0 : Int) - (-1800)| ≤ |(0 : Int) - ephW.previous_antitransit 0| ∧
     |(0 : Int) - (-1800)| ≤ |(0 : Int) - ephW.next_antitransit 0|) := by
  have hmem : build_day_events ephW 0 0 ∈ get_sun_events ephW ⟨0, 0⟩ ⟨86400, 0⟩ := by
    rw [get_sun_events_one_day]
    exact List.mem_singleton.mpr rfl
  refine ⟨hmem, antitransit_nearest_midnight ephW ⟨0, 0⟩ ⟨86400, 0⟩ _ hmem 0 rfl
    ⟨-1800, 0⟩ rfl⟩

/-- Claim C4 counterexample: over the range from local midnight 0 to the
mid-day instant 129600 (one and a half days) the series has two records,
one per day start before the end instant, while the whole-day count of
the range is one, so the claimed equality of series length and whole-day
count fails. -/
theorem series_length_cex :
    ¬ ((get_sun_events ephW ⟨0, 0⟩ ⟨129600, 0⟩).length
        = (((129600 : Int) - 0) / 86400).toNat) := by
  rw [get_sun_events, get_sun_events_loop_eq]
  decide

/-- Claim C4 (amended): the series contains exactly one record per day
whose day start is before end-date, starting from the local midnight of
start-date and stepping one day at a time; the record dates are strictly
increasing and each lies before end-date; the length is the number of day
starts before end-date, that is the rounded-up day count of the interval
from the local midnight of start-date to end-date, which exceeds the
whole-day count of the range whenever end-date falls mid-day. -/
theorem series_covers_day_starts (eph : Ephemeris) (start_date end_date : LocalDT) :
    (get_sun_events eph start_date end_date).length
        = ((end_date.utc - local_midnight start_date + 86399) / 86400).toNat ∧
    (get_sun_events eph start_date end_date).Chain'
        (fun a b => ∀ da ∈ a.date, ∀ db ∈ b.date, da < db) ∧
    (∀ e ∈ get_sun_events eph start_date end_date, ∀ d ∈ e.date,
        d < end_date.utc ∧ ∃ k : ℕ, d = local_midnight start_date + 86400 * k) := by
  rw [get_sun_events, get_sun_events_loop_eq]
  refine ⟨by simp, ?_, ?_⟩
  · apply List.Pairwise.chain'
    rw [List.pairwise_map]
    apply List.Pairwise.imp ?_ (List.pairwise_lt_range _)
    intro a b hab da hda db hdb
    simp only [build_day_events, get_set_rise, localize, Option.mem_def,
      Option.some.injEq] at hda hdb
    omega
  · intro e he d hd
    rw [List.mem_map] at he
    obtain ⟨k, hk, rfl⟩ := he
    rw [List.mem_range] at hk
    simp only [build_day_events, get_set_rise, localize, Option.mem_def,
      Option.some.injEq] at hd
    refine ⟨by omega, ⟨k, by omega⟩⟩

/-- Claim C5 counterexample: with start-date equal to end-date at local
noon, no configuration error stops the run (the source has no date-range
validation at all); the calculator produces exactly the off-by-one
single-day series the claim rules out. -/
theorem degenerate_range_cex :
    (get_sun_events ephW ⟨43200, 0⟩ ⟨43200, 0⟩).length = 1 := by
  rw [get_sun_events, get_sun_events_loop_eq]
  decide

/-- Claim C5 (amended): the code performs no date-range validation and
raises no configuration error.  When end-date is not after start-date, it
builds a single-day series whenever the local midnight of start-date is
before end-date (in particular whenever start-date equals end-date
mid-day), and otherwise an empty series, on which the subsequent layout
computation then fails mid-pipeline (min over an empty sequence, modelled
as none). -/
theorem degenerate_range_behavior (eph : Ephemeris) (p : ChartParams)
    (start_date end_date : LocalDT) (h : end_date.utc ≤ start_date.utc) :
    (local_midnight start_date < end_date.utc →
        (get_sun_events eph start_date end_date).length = 1) ∧
    (end_date.utc ≤ local_midnight start_date →
        (get_sun_events eph start_date end_date).length = 0 ∧
        compute_layout p (get_sun_events eph start_date end_date) = none) := by
  have hm : start_date.utc - 86400 < local_midnight start_date ∧
      local_midnight start_date ≤ start_date.utc := by
    unfold local_midnight
    omega
  constructor
  · intro hlt
    rw [get_sun_events, get_sun_events_loop_eq]
    simp only [List.length_map, List.length_range]
    omega
  · intro hle
    rw [get_sun_events, get_sun_events_loop_eq]
    have hz : ((end_date.utc - local_midnight start_date + 86399) / 86400).toNat = 0 := by
      omega
    rw [hz]
    exact ⟨rfl, rfl⟩

/-- Witness for the amended claim C5 at start-date = end-date = local
noon of day 0. -/
theorem degenerate_range_behavior_witness :
    ((43200 : Int) ≤ 43200) ∧
    ((local_midnight ⟨43200, 0⟩ < (43200 : Int) →
        (get_sun_events ephW ⟨43200, 0⟩ ⟨43200, 0⟩).length = 1) ∧
     ((43200 : Int) ≤ local_midnight ⟨43200, 0⟩ →
        (get_sun_events ephW ⟨43200, 0⟩ ⟨43200, 0⟩).length = 0 ∧
        compute_layout params (get_sun_events ephW ⟨43200, 0⟩ ⟨43200, 0⟩) = none)) :=
  ⟨le_refl 43200,
   degenerate_range_behavior ephW params ⟨43200, 0⟩ ⟨43200, 0⟩ (le_refl 43200)⟩

/-- Claim C1, as stated, fails on the code: the calculator stores the
previous setting relative to the day instant in set (the evening before
local midnight) and the next rising in rise (the following morning), so
in the record of the concrete non-polar one-day series the rise instant
is strictly after the set instant and the claimed chain, which requires
rise not after set, is violated. -/
theorem record_event_ordering_cex :
    build_day_events ephW 0 0 ∈ get_sun_events ephW ⟨0, 0⟩ ⟨86400, 0⟩ ∧
    record_ordered_spec (build_day_events ephW 0 0) = false := by
  refine ⟨?_, by decide⟩
  rw [get_sun_events_one_day]
  exact List.mem_singleton.mpr rfl

/-- Claim C1 (amended): in the non-polar case — the oracle returns a
previous event not after the reference and a next event not before it,
and a deeper horizon gives a later evening crossing and an earlier
morning crossing — the eight event instants of every record are ordered
chronologically as set, civil dusk, nautical dusk, astronomical dusk,
then astronomical dawn, nautical dawn, civil dawn, rise: for each record the
evening events (stored in the pm fields) precede its morning events
(stored in the am fields), with set first and rise last, rather than the
order given in the claim. -/
theorem record_event_ordering (eph : Ephemeris) (start_date end_date : LocalDT)
    (h1 : ∀ d, eph.previous_setting d (-18) true ≤ d)
    (h2 : ∀ d, d ≤ eph.next_rising d (-18) true)
    (h3 : ∀ d, eph.previous_setting d 0 false ≤ eph.previous_setting d (-6) true)
    (h4 : ∀ d, eph.previous_setting d (-6) true ≤ eph.previous_setting d (-12) true)
    (h5 : ∀ d, eph.previous_setting d (-12) true ≤ eph.previous_setting d (-18) true)
    (h6 : ∀ d, eph.next_rising d (-18) true ≤ eph.next_rising d (-12) true)
    (h7 : ∀ d, eph.next_rising d (-12) true ≤ eph.next_rising d (-6) true)
    (h8 : ∀ d, eph.next_rising d (-6) true ≤ eph.next_rising d 0 false)
    (e : SunEvents) (he : e ∈ get_sun_events eph start_date end_date) :
    record_ordered e = true := by
  obtain ⟨k, rfl⟩ := mem_get_sun_events he
  simp only [record_ordered, build_day_events, get_set_rise, localize, le_opt,
    Bool.and_eq_true, decide_eq_true_eq]
  refine ⟨⟨⟨⟨⟨⟨h3 _, h4 _⟩, h5 _⟩, le_trans (h1 _) (h2 _)⟩, h6 _⟩, h7 _⟩, h8 _⟩

/-- Witness for the amended claim C1: the concrete non-polar oracle
satisfies all the horizon facts and the single record of its one-day
series is chronologically ordered. -/
theorem record_event_ordering_witness :
    record_ordered (build_day_events ephW 0 0) = true := by
  have hmem : build_day_events ephW 0 0 ∈ get_sun_events ephW ⟨0, 0⟩ ⟨86400, 0⟩ := by
    rw [get_sun_events_one_day]
    exact List.mem_singleton.mpr rfl
  exact record_event_ordering ephW ⟨0, 0⟩ ⟨86400, 0⟩
    (fun d => by simp only [ephW]; omega)
    (fun d => by simp only [ephW]; omega)
    (fun d => by simp only [ephW]; omega)
    (fun d => by simp only [ephW]; omega)
    (fun d => by simp only [ephW]; omega)
    (fun d => by simp only [ephW]; omega)
    (fun d => by simp only [ephW]; omega)
    (fun d => by simp only [ephW]; omega)
    (build_day_events ephW 0 0) hmem

/-- Claim C6: for a mapped instant with local hour at least 12, day_diff
is the whole-day difference to start-date plus one and time_diff gains
24, so its time_diff exceeds 24 minus its hour fraction (given a positive
latest-rise offset, which is the hour fraction of an actual sunrise) and
its x coordinate lies one day column right of a same-day instant with
local hour below 12; for the latter, day_diff is exactly the whole-day
difference and time_diff is latest-rise minus hours since midnight. -/
theorem coordinate_wraparound (p : ChartParams) (latest_rise : ℚ) (d d2 : LocalDT)
    (hlr : 0 < latest_rise) (hpm : 12 ≤ d.hour) (ham : d2.hour < 12)
    (hsame : (d.utc - p.start_date.utc) / 86400 = (d2.utc - p.start_date.utc) / 86400) :
    mapped_day_diff p d = (d.utc - p.start_date.utc) / 86400 + 1 ∧
    mapped_time_diff latest_rise d = latest_rise - hours_since_midnight d + 24 ∧
    24 - hours_since_midnight d < mapped_time_diff latest_rise d ∧
    mapped_day_diff p d2 = (d2.utc - p.start_date.utc) / 86400 ∧
    mapped_time_diff latest_rise d2 = latest_rise - hours_since_midnight d2 ∧
    (date_to_point p latest_rise d).1 = (date_to_point p latest_rise d2).1 + p.hscale := by
  have hnot : ¬ (12 ≤ d2.hour) := not_le.mpr ham
  refine ⟨?_, ?_, ?_, ?_, ?_, ?_⟩
  · simp [mapped_day_diff, hpm]
  · simp [mapped_time_diff, hpm]
  · simp only [mapped_time_diff, if_pos hpm]
    linarith
  · simp [mapped_day_diff, hnot]
  · simp [mapped_time_diff, hnot]
  · simp only [date_to_point, mapped_day_diff, if_pos hpm, if_neg hnot, hsame]
    push_cast
    ring

/-- Witness for claim C6 with start at instant 0, an afternoon instant at
13:00 and a same-day morning instant at 05:00, and latest-rise offset 7. -/
theorem coordinate_wraparound_witness :
    ((0 : ℚ) < 7) ∧ ((12 : Int) ≤ LocalDT.hour ⟨46800, 0⟩) ∧
    (LocalDT.hour ⟨18000, 0⟩ < 12) ∧
    (((46800 : Int) - (0 : Int)) / 86400 = ((18000 : Int) - (0 : Int)) / 86400) ∧
    (mapped_day_diff { params with start_date := ⟨0, 0⟩ } ⟨46800, 0⟩
        = ((46800 : Int) - 0) / 86400 + 1 ∧
     mapped_time_diff 7 ⟨46800, 0⟩ = 7 - hours_since_midnight ⟨46800, 0⟩ + 24 ∧
     24 - hours_since_midnight ⟨46800, 0⟩ < mapped_time_diff 7 ⟨46800, 0⟩ ∧
     mapped_day_diff { params with start_date := ⟨0, 0⟩ } ⟨18000, 0⟩
        = ((18000 : Int) - 0) / 86400 ∧
     mapped_time_diff 7 ⟨18000, 0⟩ = 7 - hours_since_midnight ⟨18000, 0⟩ ∧
     (date_to_point { params with start_date := ⟨0, 0⟩ } 7 ⟨46800, 0⟩).1
        = (date_to_point { params with start_date := ⟨0, 0⟩ } 7 ⟨18000, 0⟩).1
          + ({ params with start_date := ⟨0, 0⟩ } : ChartParams).hscale) :=
  ⟨by decide, by decide, by decide, by decide,
   coordinate_wraparound { params with start_date := ⟨0, 0⟩ } 7 ⟨46800, 0⟩ ⟨18000, 0⟩
     (by decide) (by decide) (by decide) (by decide)⟩

/-- Claim C7: for a nonempty series and any selector pair, the band path
traces the lower-boundary points across the series in order, then the
upper-boundary points in reverse order, then an explicit close back to
its first point; it has 2 n + 1 points for n records, and its first and
last points coincide. -/
theorem band_path_closed (p : ChartParams) (latest_rise : ℚ) (events : List SunEvents)
    (key1 key2 : SunEvents → Option LocalDT) (hne : events ≠ []) :
    path_points (get_sun_event_path p latest_rise events key1 key2)
      = events.map (fun e => date_to_point p latest_rise ((key1 e).getD ⟨0, 0⟩))
        ++ events.reverse.map (fun e => date_to_point p latest_rise ((key2 e).getD ⟨0, 0⟩))
        ++ (events.map (fun e => date_to_point p latest_rise ((key1 e).getD ⟨0, 0⟩))).take 1 ∧
    (path_points (get_sun_event_path p latest_rise events key1 key2)).length
      = 2 * events.length + 1 ∧
    (path_points (get_sun_event_path p latest_rise events key1 key2)).head?
      = (path_points (get_sun_event_path p latest_rise events key1 key2)).getLast? := by
  have hfm : ∀ (l : List SunEvents) (f : SunEvents → ℚ × ℚ),
      l.filterMap (fun x => some (f x)) = l.map f := by
    intro l f
    induction l with
    | nil => rfl
    | cons x xs ih => simp [List.filterMap_cons, ih]
  have hv : path_vertices (get_sun_event_path p latest_rise events key1 key2)
      = events.map (fun e => date_to_point p latest_rise ((key1 e).getD ⟨0, 0⟩))
        ++ events.reverse.map
            (fun e => date_to_point p latest_rise ((key2 e).getD ⟨0, 0⟩)) := by
    simp [path_vertices, get_sun_event_path, List.filterMap_append, List.filterMap_map,
      Function.comp_def, hfm]
  have hclose : PathCmd.closepath ∈ get_sun_event_path p latest_rise events key1 key2 := by
    simp [get_sun_event_path]
  obtain ⟨e0, es, rfl⟩ := List.exists_cons_of_ne_nil hne
  rw [path_points, if_pos hclose, hv]
  simp only [List.map_cons, List.cons_append, List.head?_cons, List.take_succ_cons,
    List.take_zero]
  refine ⟨by simp, ?_, ?_⟩
  · simp [List.length_append, List.length_reverse]
    omega
  · have hlast : ∀ (l : List (ℚ × ℚ)) (c : ℚ × ℚ),
        some c = (c :: (l ++ [c])).getLast? := by
      intro l c
      rw [show c :: (l ++ [c]) = (c :: l) ++ [c] from rfl, List.getLast?_concat]
    exact hlast _ _

/-- Witness for claim C7 on a one-record series with the daylight
selector pair. -/
theorem band_path_closed_witness :
    (([({} : SunEvents)] : List SunEvents) ≠ []) ∧
    (path_points (get_sun_event_path { params with start_date := ⟨0, 0⟩ } 7
        [({} : SunEvents)] (fun x => x.rise) (fun x => x.set))
      = [({} : SunEvents)].map (fun e =>
          date_to_point { params with start_date := ⟨0, 0⟩ } 7 (e.rise.getD ⟨0, 0⟩))
        ++ ([({} : SunEvents)] : List SunEvents).reverse.map (fun e =>
          date_to_point { params with start_date := ⟨0, 0⟩ } 7 (e.set.getD ⟨0, 0⟩))
        ++ ([({} : SunEvents)].map (fun e =>
          date_to_point { params with start_date := ⟨0, 0⟩ } 7
            (e.rise.getD ⟨0, 0⟩))).take 1 ∧
     (path_points (get_sun_event_path { params with start_date := ⟨0, 0⟩ } 7
        [({} : SunEvents)] (fun x => x.rise) (fun x => x.set))).length
      = 2 * ([({} : SunEvents)] : List SunEvents).length + 1 ∧
     (path_points (get_sun_event_path { params with start_date := ⟨0, 0⟩ } 7
        [({} : SunEvents)] (fun x => x.rise) (fun x => x.set))).head?
      = (path_points (get_sun_event_path { params with start_date := ⟨0, 0⟩ } 7
        [({} : SunEvents)] (fun x => x.rise) (fun x => x.set))).getLast?) :=
  ⟨by simp,
   band_path_closed { params with start_date := ⟨0, 0⟩ } 7 [({} : SunEvents)]
     (fun x => x.rise) (fun x => x.set) (by simp)⟩

/-- Claim C8: the layout parameters computed from a finished series give
the earliest-set offset as 24 minus the hours since midnight of the set
field of a record whose set has the minimum time of day over the series,
the latest-rise offset as the hours since midnight of the rise field of a
record whose rise has the maximum time of day, the canvas width as the
whole-day count of the date range times the day scale plus horizontal
padding, and the canvas height as the sum of the two offsets times the
hour scale plus vertical padding. -/
theorem layout_extrema (p : ChartParams) (sun_events : List SunEvents)
    (cp : LayoutParams) (h : compute_layout p sun_events = some cp) :
    (∃ r ∈ sun_events,
        (∀ x ∈ sun_events, time_of_day r.set ≤ time_of_day x.set) ∧
        cp.earliest_set = 24 - hours_since_midnight (r.set.getD ⟨0, 0⟩)) ∧
    (∃ r ∈ sun_events,
        (∀ x ∈ sun_events, time_of_day x.rise ≤ time_of_day r.rise) ∧
        cp.latest_rise = hours_since_midnight (r.rise.getD ⟨0, 0⟩)) ∧
    cp.canvas_width = (((p.end_date.utc - p.start_date.utc) / 86400 : Int) : ℚ) * p.hscale
        + p.padding_left + p.padding_right ∧
    cp.canvas_height = (cp.earliest_set + cp.latest_rise) * p.vscale
        + p.padding_top + p.padding_bottom := by
  cases hmin : minByKey (fun x => time_of_day x.set) sun_events with
  | none =>
    rw [compute_layout, hmin] at h
    exact absurd h (by simp)
  | some set_min =>
    cases hmax : maxByKey (fun x => time_of_day x.rise) sun_events with
    | none =>
      rw [compute_layout, hmin, hmax] at h
      exact absurd h (by simp)
    | some rise_max =>
      rw [compute_layout, hmin, hmax] at h
      obtain ⟨hminmem, hminle⟩ := minByKey_spec _ _ _ hmin
      obtain ⟨hmaxmem, hmaxle⟩ := maxByKey_spec _ _ _ hmax
      simp only [Option.some.injEq] at h
      subst h
      exact ⟨⟨set_min, hminmem, hminle, rfl⟩, ⟨rise_max, hmaxmem, hmaxle, rfl⟩, rfl, rfl⟩

/-- Witness for claim C8 on a concrete two-record series: sets at 20:00
and 21:00, rises at 06:00 and 05:00, over a two-day range at scale 2.5
per day and 30 per hour with padding 30 on each side. -/
theorem layout_extrema_witness :
    compute_layout { params with start_date := ⟨0, 0⟩, end_date := ⟨172800, 0⟩ }
        [{ set := some ⟨72000, 0⟩, rise := some ⟨21600, 0⟩ },
         { set := some ⟨75600, 0⟩, rise := some ⟨18000, 0⟩ }]
      = some ⟨4, 6, 65, 360⟩ ∧
    ((∃ r ∈ ([{ set := some ⟨72000, 0⟩, rise := some ⟨21600, 0⟩ },
         { set := some ⟨75600, 0⟩, rise := some ⟨18000, 0⟩ }] : List SunEvents),
        (∀ x ∈ ([{ set := some ⟨72000, 0⟩, rise := some ⟨21600, 0⟩ },
           { set := some ⟨75600, 0⟩, rise := some ⟨18000, 0⟩ }] : List SunEvents),
          time_of_day r.set ≤ time_of_day x.set) ∧
        (⟨4, 6, 65, 360⟩ : LayoutParams).earliest_set
          = 24 - hours_since_midnight (r.set.getD ⟨0, 0⟩)) ∧
     (∃ r ∈ ([{ set := some ⟨72000, 0⟩, rise := some ⟨21600, 0⟩ },
         { set := some ⟨75600, 0⟩, rise := some ⟨18000, 0⟩ }] : List SunEvents),
        (∀ x ∈ ([{ set := some ⟨72000, 0⟩, rise := some ⟨21600, 0⟩ },
           { set := some ⟨75600, 0⟩, rise := some ⟨18000, 0⟩ }] : List SunEvents),
          time_of_day x.rise ≤ time_of_day r.rise) ∧
        (⟨4, 6, 65, 360⟩ : LayoutParams).latest_rise
          = hours_since_midnight (r.rise.getD ⟨0, 0⟩)) ∧
     (⟨4, 6, 65, 360⟩ : LayoutParams).canvas_width
        = ((((172800 : Int) - 0) / 86400 : Int) : ℚ)
            * ({ params with start_date := ⟨0, 0⟩, end_date := ⟨172800, 0⟩ }
                : ChartParams).hscale + 30 + 30 ∧
     (⟨4, 6, 65, 360⟩ : LayoutParams).canvas_height
        = ((⟨4, 6, 65, 360⟩ : LayoutParams).earliest_set
            + (⟨4, 6, 65, 360⟩ : LayoutParams).latest_rise) * 30 + 30 + 30) :=
  by
  have hcl : compute_layout { params with start_date := ⟨0, 0⟩, end_date := ⟨172800, 0⟩ }
      [{ set := some ⟨72000, 0⟩, rise := some ⟨21600, 0⟩ },
       { set := some ⟨75600, 0⟩, rise := some ⟨18000, 0⟩ }]
      = some ⟨4, 6, 65, 360⟩ := by
    norm_num [compute_layout, minByKey, maxByKey, time_of_day, hours_since_midnight,
      LocalDT.wallSecs, LocalDT.hour, LocalDT.minute, LocalDT.second, params]
  exact ⟨hcl, layout_extrema { params with start_date := ⟨0, 0⟩, end_date := ⟨172800, 0⟩ }
    [{ set := some ⟨72000, 0⟩, rise := some ⟨21600, 0⟩ },
     { set := some ⟨75600, 0⟩, rise := some ⟨18000, 0⟩ }]
    ⟨4, 6, 65, 360⟩ hcl⟩
